import Mathlib

/-!
# StickyNotes content script: a shallow embedding of `content.js`

The page state of the content script (its global flags, the rendered note
containers in document order, the viewport and `chrome.storage.local`) is an
explicit record, and every handler of `content.js` is a pure function on it.

Modelling conventions.

* JavaScript numbers are rationals (`ℚ`), and a division is only meaningful
  where the divisor is non-zero. The division of `closeDragElement`, whose
  result is multiplied back by the viewport size, is rounded to an IEEE double
  (`toDouble`); the other additions, subtractions and products are exact.
* A pixel length such as `style.left = "12.5px"` is kept as the number in
  front of `px`, and `parseFloat` of it is that number. `parseInt` works on
  text: it is applied to the text that the browser gives back for the length
  (`Browser.lengthText`), which need not be in plain decimal notation.
* What the script reads from `style.backgroundColor`, `style.fontFamily` and
  the textarea's `value` is the browser's own text for what was written
  (`Browser.colorText`, `Browser.fontFamilyText`, `Browser.valueText`); the
  element `id` and the `dataset` entries read back as written.
* `element.offsetLeft` / `element.offsetTop` are read as the `left` / `top`
  last written to the element's style; `offsetWidth` / `offsetHeight` come from
  the style sheet and are parameters of the drag handlers.
* An `async` function body runs as one step (the script is single threaded);
  for `startRecording` the step is the continuation after the microphone
  request was granted or denied.
* Of a note, the state kept is what `saveNotes`, `repositionPdfNotes`,
  `applyFocusMode` and the drag handlers read or write. Buttons, input focus,
  cursor styling, console output and the effects of `MediaRecorder.onstop`
  are not part of it.
-/

namespace StickyNotes

/-! ## JavaScript helpers -/

/-- The value of `a || b` where `a` is the result of `parseInt` (`none` for
`NaN`): `NaN` and `0` are falsy. -/
def jsOrNum (a : Option ℤ) (b : ℚ) : ℚ :=
  match a with
  | none => b
  | some n => if n = 0 then b else n

/-- The value of `a || b` on strings: the empty string is falsy. -/
def jsOrStr (a b : String) : String := if a = "" then b else a

/-- The value of `a || null` on an optional string: `null`, `undefined` and the
empty string all give `null`. -/
def jsOrNull : Option String → Option String
  | some s => if s = "" then none else some s
  | none => none

/-- Truthiness of an optional string (`if (audioBase64)`). -/
def jsTruthyStr : Option String → Bool
  | some s => s != ""
  | none => false

/-- White space that `parseInt` skips at the start of its argument. -/
def isWhiteSpace (c : Char) : Bool :=
  c.toNat ∈ [0x09, 0x0A, 0x0B, 0x0C, 0x0D, 0x20, 0xA0, 0x1680, 0x2000, 0x2001, 0x2002, 0x2003,
    0x2004, 0x2005, 0x2006, 0x2007, 0x2008, 0x2009, 0x200A, 0x2028, 0x2029, 0x202F, 0x205F,
    0x3000, 0xFEFF]

/-- The value of a character as a digit in the given radix, if it is one. -/
def digitOf (radix : Nat) (c : Char) : Option Nat :=
  let v : Option Nat :=
    if '0' ≤ c ∧ c ≤ '9' then some (c.toNat - 48)
    else if 'a' ≤ c ∧ c ≤ 'z' then some (c.toNat - 87)
    else if 'A' ≤ c ∧ c ≤ 'Z' then some (c.toNat - 55)
    else none
  v.filter fun d => d < radix

/-- Read digits for as long as there are some; `none` when there was no digit
at all. -/
def parseDigits (radix : Nat) : Option Nat → List Char → Option Nat
  | acc, [] => acc
  | acc, c :: cs =>
    match digitOf radix c with
    | some d => parseDigits radix (some (acc.getD 0 * radix + d)) cs
    | none => acc

/-- The digits that `parseInt` reads after the sign: `0x` or `0X` is the mark
of radix 16, otherwise the radix is 10. -/
def parseMagnitude : List Char → Option Nat
  | '0' :: 'x' :: t => parseDigits 16 none t
  | '0' :: 'X' :: t => parseDigits 16 none t
  | cs => parseDigits 10 none cs

/-- The value of `parseInt(s)` with no radix argument, `none` for `NaN`: skip
white space, read a sign, then take the longest run of digits and ignore the
rest of the text. -/
def parseInt (s : String) : Option ℤ :=
  match s.data.dropWhile isWhiteSpace with
  | '-' :: t => (parseMagnitude t).map fun (n : Nat) => -Int.ofNat n
  | '+' :: t => (parseMagnitude t).map fun (n : Nat) => Int.ofNat n
  | cs => (parseMagnitude cs).map fun (n : Nat) => Int.ofNat n

/-- The character of a decimal digit. -/
def digitChar (d : Nat) : Char := Char.ofNat (48 + d)

/-- The decimal digits of a natural number, without leading zeros. -/
def natText (n : Nat) : List Char :=
  if n < 10 then [digitChar n] else natText (n / 10) ++ [digitChar (n % 10)]
decreasing_by omega

/-- The text of an integer in plain decimal notation, as the conversion of a
whole number below `10 ^ 21` to a string gives it. -/
def intText (n : ℤ) : String :=
  String.mk (if n < 0 then '-' :: natText n.natAbs else natText n.natAbs)

/-- Round to the nearest integer, a tie going to the even neighbour. -/
def roundHalfEven (x : ℚ) : ℤ :=
  if x - ⌊x⌋ < 1 / 2 then ⌊x⌋
  else if 1 / 2 < x - ⌊x⌋ then ⌊x⌋ + 1
  else if ⌊x⌋ % 2 = 0 then ⌊x⌋ else ⌊x⌋ + 1

/-- The IEEE double nearest to `q`: 53 significant bits, round to nearest, ties
to even. The exponent range is not bounded, so the value is the one the
hardware gives for magnitudes between `2 ^ (-1022)` and `2 ^ 1024`. -/
def toDouble (q : ℚ) : ℚ :=
  if q = 0 then 0
  else roundHalfEven (q / 2 ^ (Int.log 2 |q| - 52)) * 2 ^ (Int.log 2 |q| - 52)

/-- The value of `a / b` on doubles. -/
def jsDiv (a b : ℚ) : ℚ := toDouble (a / b)

/-- The value of `a * b` on doubles. -/
def jsMul (a b : ℚ) : ℚ := toDouble (a * b)

/-- The value of `parseFloat(len)` for a pixel length `len = q + "px"`. -/
def parseFloat (q : ℚ) : ℚ := q

/-- Replace the first occurrence of `pat` in `s` by `rep`, on character lists. -/
def replaceFirstChars (pat rep : List Char) : List Char → List Char
  | [] => if pat = [] then rep else []
  | c :: cs =>
    if pat.isPrefixOf (c :: cs) then rep ++ (c :: cs).drop pat.length
    else c :: replaceFirstChars pat rep cs

/-- The value of `s.replace(pat, rep)` for a string pattern: only the first
occurrence is replaced. -/
def jsReplace (s pat rep : String) : String :=
  String.mk (replaceFirstChars pat.data rep.data s.data)

/-! ## Data model -/

/-- A note record: the argument object of `createStickyNote` and the record
that `saveNotes` persists. -/
structure NoteRecord where
  id : String
  x : ℚ
  y : ℚ
  xRatio : Option ℚ := none
  yRatio : Option ℚ := none
  isPdf : Bool := false
  color : String
  content : String
  font : String
  audioBase64 : Option String := none
deriving DecidableEq

/-- A rendered note: one `.stickynote-container` element with its textarea. -/
structure NoteElement where
  /-- Text of `container.id`. -/
  id : String
  /-- Whether `style.position` is `fixed` (otherwise `absolute`). -/
  fixed : Bool
  /-- Number of pixels in `style.left`. -/
  left : ℚ
  /-- Number of pixels in `style.top`. -/
  top : ℚ
  /-- Whether `dataset.isPdf` is the text `true`. -/
  dataIsPdf : Bool
  /-- Content of `dataset.xRatio`, absent on absolute notes. -/
  dataXRatio : Option ℚ
  /-- Content of `dataset.yRatio`, absent on absolute notes. -/
  dataYRatio : Option ℚ
  /-- Whether the class list holds `stickynote-hidden`. -/
  hidden : Bool
  /-- Text of `style.backgroundColor`. -/
  backgroundColor : String
  /-- Content of `dataset.audioBase64`. -/
  dataAudioBase64 : Option String
  /-- Text of the textarea. -/
  value : String
  /-- Text of the textarea's `style.fontFamily`. -/
  fontFamily : String
deriving DecidableEq

/-- A value kept in `chrome.storage.local`. -/
inductive StorageValue where
  | notes (records : List NoteRecord)
  | flag (b : Bool)
deriving DecidableEq

/-- The key-value store `chrome.storage.local`. -/
abbrev Storage := String → Option StorageValue

/-- The effect of `chrome.storage.local.set` with a single key. -/
def Storage.set (s : Storage) (k : String) (v : StorageValue) : Storage :=
  fun k' => if k' = k then some v else s k'

/-- Truthiness of a value read from storage: an array is truthy even when
empty, a missing key is `undefined`. -/
def jsTruthyStored : Option StorageValue → Bool
  | some (.notes _) => true
  | some (.flag b) => b
  | none => false

/-- What the browser gives back when the script reads a property it has
written. These conversions belong to the browser, not to `content.js`. -/
structure Browser where
  /-- Text read from `style.left` or `style.top` holding a length of `q` px. -/
  lengthText : ℚ → String
  /-- Text read from `style.backgroundColor` after the given text was
  assigned to it. -/
  colorText : String → String
  /-- Text read from `style.fontFamily` after the given text was assigned. -/
  fontFamilyText : String → String
  /-- Text read from the textarea's `value` after the given text was
  assigned. -/
  valueText : String → String

/-- The state of the content script on one page. -/
structure Page where
  browser : Browser
  /-- Text of `window.location.href`. -/
  href : String
  isPlacingNote : Bool := false
  pendingNoteColor : String := "#fff740"
  pendingNoteFont : String := "'Segoe UI', sans-serif"
  isPdfPage : Bool := false
  isFocusModeActive : Bool := false
  /-- Result of `document.querySelectorAll('.stickynote-container')`, in
  document order. -/
  notes : List NoteElement := []
  innerWidth : ℚ
  innerHeight : ℚ
  /-- Text of `document.body.style.cursor`. -/
  bodyCursor : String := ""
  storage : Storage := fun _ => none

/-! ## Note creation -/

/-- The container that `createStickyNote` builds, given the viewport and the
Focus Mode flag. -/
def buildNote (browser : Browser) (innerWidth innerHeight : ℚ) (isFocusModeActive : Bool)
    (r : NoteRecord) : NoteElement :=
  let finalXRatio := match r.xRatio with
    | some v => v
    | none => r.x / innerWidth
  let finalYRatio := match r.yRatio with
    | some v => v
    | none => r.y / innerHeight
  { id := "note-" ++ r.id
    fixed := r.isPdf
    left := if r.isPdf then finalXRatio * innerWidth else r.x
    top := if r.isPdf then finalYRatio * innerHeight else r.y
    dataIsPdf := r.isPdf
    dataXRatio := if r.isPdf then some finalXRatio else none
    dataYRatio := if r.isPdf then some finalYRatio else none
    hidden := isFocusModeActive && (r.content != "")
    backgroundColor := browser.colorText r.color
    dataAudioBase64 := if jsTruthyStr r.audioBase64 then r.audioBase64 else none
    value := browser.valueText (jsOrStr r.content "")
    fontFamily := browser.fontFamilyText (jsOrStr r.font "'Segoe UI', sans-serif") }

/-- The function `createStickyNote`: build the container and append it to the
document body. -/
def createStickyNote (p : Page) (r : NoteRecord) : Page :=
  { p with
    notes := p.notes ++
      [buildNote p.browser p.innerWidth p.innerHeight p.isFocusModeActive r] }

/-! ## Persistence -/

/-- The record that `saveNotes` pushes for one container. -/
def recordOf (browser : Browser) (el : NoteElement) : NoteRecord :=
  { id := jsReplace el.id "note-" ""
    x := jsOrNum (parseInt (browser.lengthText el.left)) 0
    y := jsOrNum (parseInt (browser.lengthText el.top)) 0
    xRatio := el.dataXRatio.map parseFloat
    yRatio := el.dataYRatio.map parseFloat
    isPdf := el.dataIsPdf
    color := el.backgroundColor
    content := el.value
    font := el.fontFamily
    audioBase64 := jsOrNull el.dataAudioBase64 }

/-- The function `saveNotes`: write the records of all rendered notes under the
page URL. -/
def saveNotes (p : Page) : Page :=
  { p with storage := p.storage.set p.href (.notes (p.notes.map (recordOf p.browser))) }

/-- The function `applyFocusMode`. -/
def applyFocusMode (p : Page) (enabled : Bool) : Page :=
  { p with
    isFocusModeActive := enabled
    notes := p.notes.map fun note => { note with hidden := enabled } }

/-- The argument that `loadNotes` passes to `createStickyNote` for a stored
record. -/
def restoreArg (note : NoteRecord) : NoteRecord :=
  { id := note.id, x := note.x, y := note.y, color := note.color
    content := note.content, font := note.font, isPdf := note.isPdf
    xRatio := note.xRatio, yRatio := note.yRatio
    audioBase64 := jsOrNull note.audioBase64 }

/-- The function `loadNotes`. -/
def loadNotes (p : Page) : Page :=
  let p1 := match p.storage p.href with
    | some (.notes records) =>
      records.foldl (fun q note => createStickyNote q (restoreArg note)) p
    | _ => p
  if jsTruthyStored (p.storage "focusMode") then applyFocusMode p1 true else p1

/-! ## PDF overlay -/

/-- The function `repositionPdfNotes`, the `resize` handler. -/
def repositionPdfNotes (p : Page) : Page :=
  if !p.isPdfPage then p
  else
    { p with
      notes := p.notes.map fun note =>
        match note.dataXRatio, note.dataYRatio with
        | some xr, some yr =>
          { note with left := parseFloat xr * p.innerWidth
                      top := parseFloat yr * p.innerHeight }
        | _, _ => note }

/-- A `resize` event: the viewport takes its new size and the handler runs. -/
def onResize (p : Page) (newWidth newHeight : ℚ) : Page :=
  repositionPdfNotes { p with innerWidth := newWidth, innerHeight := newHeight }

/-! ## Messages from the popup and note placement -/

/-- A message received by the `chrome.runtime.onMessage` listener, by its
`action`. -/
inductive Request where
  | ping
  | initNotePlacement (color font : String)
  | toggleFocusMode (enabled : Bool)
  | other

/-- The `chrome.runtime.onMessage` listener; `now` is the value of
`Date.now()` when it runs. -/
def onMessage (p : Page) (request : Request) (now : Nat) : Page :=
  match request with
  | .ping => p
  | .initNotePlacement color font =>
    let p := { p with pendingNoteColor := color, pendingNoteFont := font }
    if p.isPdfPage then
      let x := p.innerWidth - 244
      let y : ℚ := 24
      let xRatio := x / p.innerWidth
      let yRatio := y / p.innerHeight
      saveNotes (createStickyNote p
        { id := toString now, x := x, y := y, color := p.pendingNoteColor
          content := "", font := p.pendingNoteFont, isPdf := true
          xRatio := some xRatio, yRatio := some yRatio })
    else
      { p with isPlacingNote := true, bodyCursor := "crosshair" }
  | .toggleFocusMode enabled => applyFocusMode p enabled
  | .other => p

/-- A `click` event on the document. -/
structure ClickEvent where
  pageX : ℚ
  pageY : ℚ
  /-- Whether `e.target.closest('.stickynote-container')` finds a note. -/
  targetInNote : Bool
  /-- The value of `Date.now()` when the listener runs. -/
  now : Nat

/-- The document `click` listener (note placement on normal pages). -/
def onClick (p : Page) (e : ClickEvent) : Page :=
  if !p.isPlacingNote || p.isPdfPage then p
  else if e.targetInNote then p
  else
    let p1 := createStickyNote p
      { id := toString e.now, x := e.pageX, y := e.pageY, color := p.pendingNoteColor
        content := "", font := p.pendingNoteFont, isPdf := false }
    let p2 := saveNotes p1
    { p2 with isPlacingNote := false, bodyCursor := "default" }

/-! ## Drag and drop -/

/-- A mouse event seen by the drag handlers. -/
structure MouseEvent where
  clientX : ℚ
  clientY : ℚ

/-- The closure of `makeDraggable` for one note: the variables `pos1` to `pos4`
and the element; cursor styling is left out. -/
structure Drag where
  pos1 : ℚ := 0
  pos2 : ℚ := 0
  pos3 : ℚ := 0
  pos4 : ℚ := 0
  element : NoteElement

/-- The handler `dragMouseDown`. -/
def dragMouseDown (d : Drag) (e : MouseEvent) : Drag :=
  { d with pos3 := e.clientX, pos4 := e.clientY }

/-- The handler `elementDrag`; `isPdf` is the flag captured by `makeDraggable`,
the next four arguments are `window.innerWidth`, `window.innerHeight`,
`element.offsetWidth` and `element.offsetHeight`. -/
def elementDrag (isPdf : Bool) (innerWidth innerHeight offsetWidth offsetHeight : ℚ)
    (d : Drag) (e : MouseEvent) : Drag :=
  let pos1 := d.pos3 - e.clientX
  let pos2 := d.pos4 - e.clientY
  let pos3 := e.clientX
  let pos4 := e.clientY
  let newTop := d.element.top - pos2
  let newLeft := d.element.left - pos1
  let newTop := if isPdf then max 0 (min newTop (innerHeight - offsetHeight)) else newTop
  let newLeft := if isPdf then max 0 (min newLeft (innerWidth - offsetWidth)) else newLeft
  { pos1 := pos1, pos2 := pos2, pos3 := pos3, pos4 := pos4
    element := { d.element with top := newTop, left := newLeft } }

/-- The element update of `closeDragElement` (before its `saveNotes`); the two
quotients are IEEE doubles. -/
def closeDragElement (isPdf : Bool) (innerWidth innerHeight : ℚ)
    (element : NoteElement) : NoteElement :=
  if isPdf then
    { element with
      dataXRatio := some (jsDiv (parseFloat element.left) innerWidth)
      dataYRatio := some (jsDiv (parseFloat element.top) innerHeight) }
  else element

/-- One whole drag of a note: pointer-down, the pointer moves in order, and
pointer-up. -/
def dragGesture (isPdf : Bool) (innerWidth innerHeight offsetWidth offsetHeight : ℚ)
    (d : Drag) (down : MouseEvent) (moves : List MouseEvent) : NoteElement :=
  closeDragElement isPdf innerWidth innerHeight
    (moves.foldl (elementDrag isPdf innerWidth innerHeight offsetWidth offsetHeight)
      (dragMouseDown d down)).element

/-- A drag of the note at index `i` of the page, followed by the `saveNotes`
call that ends `closeDragElement`. -/
def dragNote (p : Page) (i : Nat) (offsetWidth offsetHeight : ℚ)
    (down : MouseEvent) (moves : List MouseEvent) : Page :=
  match p.notes.get? i with
  | some el =>
    saveNotes { p with
      notes := p.notes.set i
        (dragGesture el.dataIsPdf p.innerWidth p.innerHeight offsetWidth offsetHeight
          { element := el } down moves) }
  | none => p

/-- The pointer position at the end of a drag: the last move, or the
pointer-down position when the pointer never moved. -/
def lastPointer : MouseEvent → List MouseEvent → MouseEvent
  | e, [] => e
  | _, m :: ms => lastPointer m ms

/-! ## Audio recording -/

/-- The `state` of a `MediaRecorder`. -/
inductive RecorderState where
  | inactive
  | recording
  | paused
deriving DecidableEq

/-- A `MediaRecorder` object created by `startRecording`, with the note it was
created for. -/
structure Recorder where
  noteId : String
  state : RecorderState
deriving DecidableEq

/-- The recording state of the page: every `MediaRecorder` created so far, in
creation order, and the map `activeRecorders` from note id to the position of
its recorder in that list. -/
structure AudioState where
  recorders : List Recorder := []
  activeRecorders : String → Option Nat := fun _ => none

/-- The body of `startRecording` after `getUserMedia`: with the request granted
a new recorder is created and started and `activeRecorders.set` is called; with
the request denied the `catch` branch only logs. -/
def startRecording (a : AudioState) (noteId : String) (granted : Bool) : AudioState :=
  if granted then
    { recorders := a.recorders ++ [{ noteId := noteId, state := .recording }]
      activeRecorders := fun k =>
        if k = noteId then some a.recorders.length else a.activeRecorders k }
  else a

/-- The function `stopRecording`. -/
def stopRecording (a : AudioState) (noteId : String) : AudioState :=
  match a.activeRecorders noteId with
  | some i =>
    match a.recorders.get? i with
    | some r =>
      if r.state ≠ .inactive then
        { recorders := a.recorders.set i { r with state := .inactive }
          activeRecorders := fun k => if k = noteId then none else a.activeRecorders k }
      else a
    | none => a
  | none => a

/-- The callback of the timer that `startRecording` sets for 60 seconds
later. -/
def autoStopTimer (a : AudioState) (noteId : String) : AudioState :=
  if (a.activeRecorders noteId).isSome then stopRecording a noteId else a

/-- An event of the recording state machine: a `startRecording` call whose
microphone request is answered, a `stopRecording` call, or the auto-stop
timer of an earlier `startRecording` firing, each for a note id. -/
inductive AudioEvent where
  | start (noteId : String) (granted : Bool)
  | stop (noteId : String)
  | timer (noteId : String)

/-- The effect of one event on the recording state. -/
def audioStep (a : AudioState) : AudioEvent → AudioState
  | .start noteId granted => startRecording a noteId granted
  | .stop noteId => stopRecording a noteId
  | .timer noteId => autoStopTimer a noteId

/-- The number of recorders of a note that are currently recording. -/
def activeRecordings (a : AudioState) (noteId : String) : Nat :=
  (a.recorders.filter fun r => r.noteId = noteId ∧ r.state = .recording).length

/-! ## Scenarios -/

/-- A freshly loaded page at `href` over the given storage: no note is
rendered and the flags have their initial values, except `isPdfPage`, which
`checkPdfStatus` has set. -/
def freshPage (browser : Browser) (href : String) (innerWidth innerHeight : ℚ)
    (isPdfPage : Bool) (storage : Storage) : Page :=
  { browser := browser, href := href, innerWidth := innerWidth, innerHeight := innerHeight
    isPdfPage := isPdfPage, storage := storage }

/-- Save the notes of `p`, then load the same URL on a fresh page in the same
browser. -/
def saveThenLoad (p : Page) (innerWidth innerHeight : ℚ) (isPdfPage : Bool) : Page :=
  loadNotes (freshPage p.browser p.href innerWidth innerHeight isPdfPage (saveNotes p).storage)

/-! ## Concrete inputs used to exercise the theorems -/

/-- The digits after the decimal point of a number in `[0, 1)`, at most `k`. -/
def fractionText : Nat → ℚ → List Char
  | 0, _ => []
  | k + 1, r =>
    if r = 0 then []
    else digitChar ⌊10 * r⌋.toNat :: fractionText k (10 * r - ⌊10 * r⌋)

/-- A length in plain decimal notation with at most six fractional digits,
such as `100px`, `100.5px` or `-44px`. -/
def decimalLengthText (q : ℚ) : String :=
  String.mk ((if q < 0 then ['-'] else []) ++ natText ⌊|q|⌋.toNat ++
    (if |q| - ⌊|q|⌋ = 0 then [] else '.' :: fractionText 6 (|q| - ⌊|q|⌋)) ++ ['p', 'x'])

/-- A browser for the examples: lengths read back in plain decimal notation,
the two hexadecimal colours and the quoted font of the examples read back the
way Chromium writes them, every other text reads back as written. -/
def sampleBrowser : Browser :=
  { lengthText := decimalLengthText
    colorText := fun c =>
      if c = "#fff740" then "rgb(255, 247, 64)"
      else if c = "#ff7eb9" then "rgb(255, 126, 185)"
      else c
    fontFamilyText := fun f =>
      if f = "'Segoe UI', sans-serif" then "\"Segoe UI\", sans-serif" else f
    valueText := fun v => v }

/-- A stored record of an absolute note. -/
def sampleRecord : NoteRecord :=
  { id := "1700000000000", x := 100, y := 50, color := "#fff740"
    content := "hello", font := "Arial" }

/-- A storage holding one record under one URL. -/
def sampleStorage : Storage :=
  fun k => if k = "https://example.org/a" then some (.notes [sampleRecord]) else none

/-- A freshly loaded normal page over `sampleStorage`. -/
def samplePage : Page :=
  freshPage sampleBrowser "https://example.org/a" 1000 800 false sampleStorage

/-- A normal page with nothing rendered and nothing stored. -/
def emptyPage : Page :=
  freshPage sampleBrowser "https://example.org/a" 1000 800 false (fun _ => none)

/-- An absolute note placed at a half pixel. -/
def halfPixelNote : NoteRecord :=
  { id := "1700000000000", x := 201 / 2, y := 50, color := "#fff740"
    content := "hello", font := "Arial" }

/-- A PDF-mode record as `saveNotes` stores it. -/
def pdfRecord : NoteRecord :=
  { id := "1700000000001", x := 500, y := 200, color := "#fff740", content := "fig. 2"
    font := "Arial", isPdf := true, xRatio := some (1 / 2), yRatio := some (1 / 4) }

/-- A page on which `checkPdfStatus` found no PDF, showing one PDF-mode note
restored from storage. -/
def undetectedPdfPage : Page := createStickyNote emptyPage pdfRecord

/-- A note as the click listener creates it: empty. -/
def emptyNote : NoteRecord :=
  { id := "1700000000002", x := 10, y := 20, color := "#fff740", content := "", font := "Arial" }

/-- A PDF note rendered at the top left corner. -/
def cornerPdfNote : NoteElement :=
  buildNote sampleBrowser 200 600 false
    { id := "1700000000004", x := 0, y := 0, color := "#fff740", content := "", font := "Arial"
      isPdf := true, xRatio := some 0, yRatio := some 0 }

/-- A normal page showing one note whose text was edited, over a storage that
holds the Focus Mode flag, a list for another URL and an older list for this
URL. -/
def storedElsewherePage : Page :=
  { createStickyNote emptyPage sampleRecord with
    storage := fun k =>
      if k = "focusMode" then some (.flag true)
      else if k = "https://example.org/b" then some (.notes [sampleRecord])
      else if k = "https://example.org/a" then some (.notes [emptyNote, emptyNote])
      else none }

/-- A PDF page in an ordinary viewport. -/
def widePdfPage : Page :=
  freshPage sampleBrowser "https://example.org/doc.pdf" 1000 800 true (fun _ => none)

/-- A PDF page in a viewport narrower than the fixed offset of 244 pixels. -/
def narrowPdfPage : Page :=
  freshPage sampleBrowser "https://example.org/doc.pdf" 200 600 true (fun _ => none)

/-- The recording state after the first granted `startRecording` on a note. -/
def firstRecording : AudioState := startRecording {} "1700000000000" true

/-! ## Shared lemmas -/

theorem createStickyNote_notes (p : Page) (r : NoteRecord) :
    (createStickyNote p r).notes =
      p.notes ++ [buildNote p.browser p.innerWidth p.innerHeight p.isFocusModeActive r] := rfl

/-- Restoring a list of records appends one container per record, in order,
and changes nothing else on the page. -/
theorem restore_foldl (records : List NoteRecord) (p : Page) :
    records.foldl (fun q note => createStickyNote q (restoreArg note)) p =
      { p with
        notes := p.notes ++ records.map fun note =>
          buildNote p.browser p.innerWidth p.innerHeight p.isFocusModeActive (restoreArg note) } := by
  induction records generalizing p with
  | nil => simp
  | cons r rs ih =>
    rw [List.foldl_cons, ih]
    simp [createStickyNote, List.append_assoc]

/-- The number of rendered notes after `loadNotes` when the URL holds a list. -/
theorem loadNotes_length (p : Page) (records : List NoteRecord)
    (h : p.storage p.href = some (.notes records)) :
    (loadNotes p).notes.length = p.notes.length + records.length := by
  unfold loadNotes
  simp only [h, restore_foldl]
  split <;> simp [applyFocusMode]

/-- The container ids after `loadNotes` when the URL holds a list. -/
theorem loadNotes_ids (p : Page) (records : List NoteRecord)
    (h : p.storage p.href = some (.notes records)) :
    (loadNotes p).notes.map NoteElement.id =
      p.notes.map NoteElement.id ++ records.map fun r => "note-" ++ r.id := by
  unfold loadNotes
  simp only [h, restore_foldl]
  split <;> simp [applyFocusMode, buildNote, restoreArg, Function.comp_def]

theorem loadNotes_storage (p : Page) : (loadNotes p).storage = p.storage := by
  unfold loadNotes
  split <;> split <;> simp [applyFocusMode, restore_foldl]

theorem loadNotes_browser (p : Page) : (loadNotes p).browser = p.browser := by
  unfold loadNotes
  split <;> split <;> simp [applyFocusMode, restore_foldl]

theorem loadNotes_href (p : Page) : (loadNotes p).href = p.href := by
  unfold loadNotes
  split <;> split <;> simp [applyFocusMode, restore_foldl]

theorem saveNotes_storage_href (p : Page) :
    (saveNotes p).storage p.href = some (.notes (p.notes.map (recordOf p.browser))) := by
  simp [saveNotes, Storage.set]

/-! ## Persistence: overwrite and frame (C5), duplication on reload (C6) -/

/-- C5: `saveNotes` stores under the page URL exactly the records of the
rendered notes, one per note and in rendering order, whatever the storage held
before, leaves every other key (other URLs, the `focusMode` flag) as it was,
and does not touch the rendered notes. -/
theorem saveNotes_overwrites_only_current_url (p : Page) :
    (saveNotes p).storage p.href = some (.notes (p.notes.map (recordOf p.browser))) ∧
    (p.notes.map (recordOf p.browser)).length = p.notes.length ∧
    (∀ (i : Nat) (el : NoteElement), p.notes.get? i = some el →
      (p.notes.map (recordOf p.browser)).get? i = some (recordOf p.browser el)) ∧
    (∀ s : Storage, (saveNotes { p with storage := s }).storage p.href =
      (saveNotes p).storage p.href) ∧
    (∀ k : String, k ≠ p.href → (saveNotes p).storage k = p.storage k) ∧
    (saveNotes p).notes = p.notes := by
  refine ⟨saveNotes_storage_href p, by simp, ?_, ?_, ?_, rfl⟩
  · intro i el h
    simp [List.get?_eq_getElem?, List.getElem?_map] at h ⊢
    simp [h]
  · intro s
    simp [saveNotes, Storage.set]
  · intro k hk
    simp [saveNotes, Storage.set, hk]

theorem saveNotes_overwrites_only_current_url_witness :
    (saveNotes storedElsewherePage).storage "https://example.org/a" =
      some (.notes (storedElsewherePage.notes.map (recordOf storedElsewherePage.browser))) ∧
    (saveNotes storedElsewherePage).storage "focusMode" = some (.flag true) ∧
    (saveNotes storedElsewherePage).storage "https://example.org/b" =
      some (.notes [sampleRecord]) :=
  ⟨(saveNotes_overwrites_only_current_url storedElsewherePage).1,
    ((saveNotes_overwrites_only_current_url storedElsewherePage).2.2.2.2.1 "focusMode"
      (by decide)).trans (by decide),
    ((saveNotes_overwrites_only_current_url storedElsewherePage).2.2.2.2.1
      "https://example.org/b" (by decide)).trans (by decide)⟩

/-- C6: `loadNotes` always creates: with `n` records stored under the URL and
`m` notes rendered it leaves `m + n` notes; a second call leaves `m + 2n`, so
`2n` on a page that had none, every stored id rendered twice; and a
`saveNotes` after that writes `2n` records. -/
theorem loadNotes_always_creates (p : Page) (records : List NoteRecord)
    (h : p.storage p.href = some (.notes records)) :
    (loadNotes p).notes.length = p.notes.length + records.length ∧
    (loadNotes (loadNotes p)).notes.length = p.notes.length + 2 * records.length ∧
    (p.notes = [] →
      (loadNotes (loadNotes p)).notes.length = 2 * records.length ∧
      (loadNotes (loadNotes p)).notes.map NoteElement.id =
        (records ++ records).map (fun r => "note-" ++ r.id) ∧
      ∃ saved, (saveNotes (loadNotes (loadNotes p))).storage p.href = some (.notes saved) ∧
        saved.length = 2 * records.length) := by
  have h2 : (loadNotes p).storage (loadNotes p).href = some (.notes records) := by
    rw [loadNotes_storage, loadNotes_href, h]
  have l1 := loadNotes_length p records h
  have l2 := loadNotes_length (loadNotes p) records h2
  refine ⟨l1, by omega, ?_⟩
  intro hm
  have hm0 : p.notes.length = 0 := by simp [hm]
  refine ⟨by omega, ?_, ?_⟩
  · rw [loadNotes_ids _ records h2, loadNotes_ids p records h, hm]
    simp
  · refine ⟨(loadNotes (loadNotes p)).notes.map (recordOf p.browser), ?_, ?_⟩
    · have := saveNotes_storage_href (loadNotes (loadNotes p))
      rw [loadNotes_href, loadNotes_href, loadNotes_browser, loadNotes_browser] at this
      exact this
    · rw [List.length_map]
      omega

theorem loadNotes_always_creates_witness :
    samplePage.storage samplePage.href = some (.notes [sampleRecord]) ∧
    (loadNotes (loadNotes samplePage)).notes.length = samplePage.notes.length + 2 * 1 :=
  ⟨by decide, (loadNotes_always_creates samplePage [sampleRecord] (by decide)).2.1⟩

/-! ## Lemmas on the JavaScript helpers -/

theorem jsOrNum_some_zero (n : ℤ) : jsOrNum (some n) 0 = n := by
  unfold jsOrNum
  by_cases h : n = 0 <;> simp [h]

theorem digitOf_digitChar (d : Nat) (h : d < 10) : digitOf 10 (digitChar d) = some d := by
  interval_cases d <;> decide

theorem isWhiteSpace_digitChar (d : Nat) (h : d < 10) : isWhiteSpace (digitChar d) = false := by
  interval_cases d <;> decide

theorem digitChar_ne_sign (d : Nat) (h : d < 10) :
    digitChar d ≠ '-' ∧ digitChar d ≠ '+' ∧ digitChar d ≠ 'x' ∧ digitChar d ≠ 'X' := by
  interval_cases d <;> decide

/-- The decimal digits of a number start with a digit, which is `0` only for
the number zero. -/
theorem natText_eq_cons (n : Nat) :
    ∃ d t, d < 10 ∧ natText n = digitChar d :: t ∧ (d = 0 → n = 0) := by
  induction n using Nat.strong_induction_on with
  | _ n ih =>
    rw [natText]
    split
    · next h => exact ⟨n, [], h, rfl, id⟩
    · next h =>
      obtain ⟨d, t, hd, ht, h0⟩ := ih (n / 10) (by omega)
      refine ⟨d, t ++ [digitChar (n % 10)], hd, by rw [ht]; rfl, ?_⟩
      intro hd0
      have := h0 hd0
      omega

/-- Reading the decimal digits of `n` gives `n`, whatever follows them. -/
theorem parseDigits_natText (n : Nat) (rest : List Char) :
    parseDigits 10 none (natText n ++ rest) = parseDigits 10 (some n) rest := by
  induction n using Nat.strong_induction_on generalizing rest with
  | _ n ih =>
    rw [natText]
    split
    · next h =>
      simp [parseDigits, digitOf_digitChar n h]
    · next h =>
      rw [List.append_assoc, ih (n / 10) (by omega)]
      simp only [List.singleton_append, parseDigits, digitOf_digitChar _ (Nat.mod_lt n (by omega)),
        Option.getD_some]
      congr 2
      omega

theorem digitChar_eq_zero (d : Nat) (h : d < 10) (h0 : digitChar d = '0') : d = 0 := by
  interval_cases d <;> first | rfl | exact absurd h0 (by decide)

/-- After the sign, the decimal digits of `n` followed by `px` read as `n`. -/
theorem parseMagnitude_natText_px (n : Nat) :
    parseMagnitude (natText n ++ ['p', 'x']) = some n := by
  have hpx : parseDigits 10 (some n) ['p', 'x'] = some n := by
    simp only [parseDigits]
    rfl
  obtain ⟨d, t, hd, ht, h0⟩ := natText_eq_cons n
  by_cases hz : d = 0
  · have hn := h0 hz
    subst hn
    have : natText 0 = ['0'] := by rw [natText]; rfl
    rw [this]
    rfl
  · have hne : digitChar d ≠ '0' := fun h => hz (digitChar_eq_zero d hd h)
    have hdef : parseMagnitude (natText n ++ ['p', 'x']) =
        parseDigits 10 none (natText n ++ ['p', 'x']) := by
      rw [ht]
      unfold parseMagnitude
      split
      · next heq => exact absurd (List.cons.inj heq).1 hne
      · next heq => exact absurd (List.cons.inj heq).1 hne
      · rfl
    rw [hdef, parseDigits_natText, hpx]

/-- The text of a whole number of pixels in plain decimal notation reads back
as that number. -/
theorem parseInt_intText_px (n : ℤ) : parseInt (intText n ++ "px") = some n := by
  have hdata : (intText n ++ "px").data =
      (if n < 0 then '-' :: natText n.natAbs else natText n.natAbs) ++ ['p', 'x'] := by
    rw [String.data_append]
    rfl
  unfold parseInt
  rw [hdata]
  by_cases hneg : n < 0
  · simp only [hneg, if_true, List.cons_append]
    have hw : isWhiteSpace '-' = false := by decide
    rw [List.dropWhile_cons_of_neg (by simp [hw])]
    simp only [parseMagnitude_natText_px, Option.map_some']
    congr 1
    simp only [Int.ofNat_eq_coe]
    omega
  · simp only [hneg, if_false]
    obtain ⟨d, t, hd, ht, -⟩ := natText_eq_cons n.natAbs
    have hm := parseMagnitude_natText_px n.natAbs
    rw [ht] at hm ⊢
    rw [List.cons_append, List.dropWhile_cons_of_neg (by simp [isWhiteSpace_digitChar d hd])]
    have hs := digitChar_ne_sign d hd
    split
    · next heq => exact absurd (List.cons.inj heq).1 hs.1
    · next heq => exact absurd (List.cons.inj heq).1 hs.2.1
    · rw [List.cons_append] at hm
      rw [hm]
      simp only [Option.map_some']
      congr 1
      simp only [Int.ofNat_eq_coe]
      omega

theorem jsOrStr_empty (s : String) : jsOrStr s "" = s := by
  unfold jsOrStr
  split
  · next h => exact h.symm
  · rfl

/-- Stripping the `note-` that `createStickyNote` put in front of an id gives
the id back. -/
theorem jsReplace_note_id (s : String) : jsReplace ("note-" ++ s) "note-" "" = s := by
  have h : ("note-" ++ s).data = 'n' :: 'o' :: 't' :: 'e' :: '-' :: s.data := by
    rw [String.data_append]
    rfl
  have hp : ("note-" : String).data = ['n', 'o', 't', 'e', '-'] := rfl
  have he : ("" : String).data = [] := rfl
  unfold jsReplace
  rw [h, hp, he]
  simp [replaceFirstChars, List.isPrefixOf]

/-- The notes rendered by a load that follows a save: one per saved note, in
order, each rebuilt from its record on the fresh page. -/
theorem saveThenLoad_notes (p : Page) (W H : ℚ) (pdf : Bool) :
    (saveThenLoad p W H pdf).notes =
      p.notes.map fun el =>
        { buildNote p.browser W H false (restoreArg (recordOf p.browser el)) with
          hidden := jsTruthyStored ((saveNotes p).storage "focusMode") } := by
  unfold saveThenLoad loadNotes
  have hs : (freshPage p.browser p.href W H pdf (saveNotes p).storage).storage
      (freshPage p.browser p.href W H pdf (saveNotes p).storage).href =
      some (.notes (p.notes.map (recordOf p.browser))) := saveNotes_storage_href p
  simp only [hs, restore_foldl]
  split
  · next hf =>
    have hf2 : jsTruthyStored ((saveNotes p).storage "focusMode") = true := hf
    simp [applyFocusMode, freshPage, hf2, Function.comp_def]
  · next hf =>
    have hf2 : jsTruthyStored ((saveNotes p).storage "focusMode") = false := by
      simpa [freshPage] using hf
    simp [freshPage, hf2, Function.comp_def, buildNote]

/-- The example browser writes a whole number of pixels in plain decimal
notation. -/
theorem decimalLengthText_intCast (n : ℤ) : decimalLengthText (n : ℚ) = intText n ++ "px" := by
  have habs : |(n : ℚ)| = ((|n| : ℤ) : ℚ) := by push_cast; rfl
  have hfl : ⌊|(n : ℚ)|⌋ = |n| := by rw [habs, Int.floor_intCast]
  have hnat : (|n|).toNat = n.natAbs := by
    rw [Int.abs_eq_natAbs, Int.toNat_natCast]
  have hfrac : |(n : ℚ)| - ⌊|(n : ℚ)|⌋ = 0 := by rw [hfl, habs]; simp
  unfold decimalLengthText intText
  rw [hfrac, hfl, hnat]
  apply String.ext
  by_cases hneg : n < 0
  · have hq : (n : ℚ) < 0 := by exact_mod_cast hneg
    simp only [hneg, hq, if_true, String.data_append]
    simp
  · have hq : ¬ (n : ℚ) < 0 := by exact_mod_cast hneg
    simp only [hneg, hq, if_false, String.data_append]
    simp

/-- The example browser writes a length of `100.5` pixels as `100.5px`. -/
theorem decimalLengthText_half : decimalLengthText (201 / 2) = "100.5px" := by
  have habs : |(201 / 2 : ℚ)| = 201 / 2 := abs_of_pos (by norm_num)
  have hfl : ⌊(201 / 2 : ℚ)⌋ = 100 := by
    rw [Int.floor_eq_iff]
    norm_num
  have h5 : ⌊(10 * (201 / 2 - 100) : ℚ)⌋ = 5 := by
    rw [Int.floor_eq_iff]
    norm_num
  unfold decimalLengthText
  rw [habs, hfl]
  have h100 : natText (100 : ℤ).toNat = ['1', '0', '0'] := by
    simp [natText]
    decide
  rw [h100]
  norm_num [fractionText, h5]
  decide

/-- An exponent form reads as its leading digits: `parseInt("1e+21px")` is `1`. -/
theorem parseInt_exponent_text : parseInt "1e+21px" = some 1 ∧ parseInt "1e-07px" = some 1 := by
  decide

/-! ## Round trip of absolute notes (C1) -/

/-- C1 fails at a fractional position: in a browser that reads `100.5px` back
from `style.left`, a note created at `x = 100.5` is stored with
`x = parseInt("100.5px") = 100` and comes back at `left = 100`. -/
theorem roundtrip_truncates_half_pixel :
    halfPixelNote.isPdf = false ∧
    (createStickyNote emptyPage halfPixelNote).notes.map NoteElement.left = [201 / 2] ∧
    (saveThenLoad (createStickyNote emptyPage halfPixelNote) 1000 800 false).notes.map
      NoteElement.left = [100] ∧
    (201 / 2 : ℚ) ≠ 100 := by
  refine ⟨rfl, by simp [createStickyNote, emptyPage, freshPage, buildNote, halfPixelNote],
    ?_, by norm_num⟩
  have hp : parseInt (decimalLengthText (201 / 2)) = some 100 := by
    rw [decimalLengthText_half]
    decide
  rw [saveThenLoad_notes]
  simp [createStickyNote, emptyPage, freshPage, buildNote, halfPixelNote, restoreArg, recordOf,
    sampleBrowser, hp, jsOrNum]

/-- C1, amended: a note created in absolute mode at a whole-number position
`(x, y)` is, after `saveNotes` and a `loadNotes` of the same URL on a fresh
page, rendered again at the same index with the same left, top, background
colour, text and font family as the original container, and at the `x`, `y` it
was created with, provided the browser reads `style.left` and `style.top` back
as the decimal digits of `x` and `y` followed by `px`, reads the colour, the
text and the font family of the original container back unchanged when they
are written once more, and the font family of the original is not empty. -/
theorem absolute_roundtrip_whole_pixels (p : Page) (r : NoteRecord) (nx ny : ℤ)
    (W H : ℚ) (pdf : Bool)
    (hpdf : r.isPdf = false) (hx : r.x = nx) (hy : r.y = ny)
    (hxt : p.browser.lengthText r.x = intText nx ++ "px")
    (hyt : p.browser.lengthText r.y = intText ny ++ "px")
    (hcolor : p.browser.colorText (p.browser.colorText r.color) = p.browser.colorText r.color)
    (hvalue : p.browser.valueText (p.browser.valueText r.content) =
      p.browser.valueText r.content)
    (hfont : p.browser.fontFamilyText
        (p.browser.fontFamilyText (jsOrStr r.font "'Segoe UI', sans-serif")) =
      p.browser.fontFamilyText (jsOrStr r.font "'Segoe UI', sans-serif"))
    (hfont0 : p.browser.fontFamilyText (jsOrStr r.font "'Segoe UI', sans-serif") ≠ "") :
    (saveThenLoad (createStickyNote p r) W H pdf).notes.length = p.notes.length + 1 ∧
    ∃ el', (saveThenLoad (createStickyNote p r) W H pdf).notes.get? p.notes.length = some el' ∧
      el'.left = (buildNote p.browser p.innerWidth p.innerHeight p.isFocusModeActive r).left ∧
      el'.top = (buildNote p.browser p.innerWidth p.innerHeight p.isFocusModeActive r).top ∧
      el'.backgroundColor =
        (buildNote p.browser p.innerWidth p.innerHeight p.isFocusModeActive r).backgroundColor ∧
      el'.value = (buildNote p.browser p.innerWidth p.innerHeight p.isFocusModeActive r).value ∧
      el'.fontFamily =
        (buildNote p.browser p.innerWidth p.innerHeight p.isFocusModeActive r).fontFamily ∧
      el'.id = (buildNote p.browser p.innerWidth p.innerHeight p.isFocusModeActive r).id ∧
      el'.dataIsPdf = false ∧ el'.left = r.x ∧ el'.top = r.y := by
  rw [saveThenLoad_notes]
  refine ⟨by simp [createStickyNote], ?_⟩
  refine ⟨_, by
    rw [List.get?_eq_getElem?, List.getElem?_map, createStickyNote_notes,
      List.getElem?_concat_length]
    rfl, ?_⟩
  have hb : (createStickyNote p r).browser = p.browser := rfl
  rw [hx] at hxt
  rw [hy] at hyt
  have hfs : jsOrStr (p.browser.fontFamilyText (jsOrStr r.font "'Segoe UI', sans-serif"))
      "'Segoe UI', sans-serif" =
      p.browser.fontFamilyText (jsOrStr r.font "'Segoe UI', sans-serif") := by
    rw [jsOrStr, if_neg hfont0]
  simp only [hb, buildNote, restoreArg, recordOf, hpdf, hxt, hyt, parseInt_intText_px,
    jsOrNum_some_zero, jsOrStr_empty, hfs, hcolor, hvalue, hfont, hx, hy, jsReplace_note_id]
  simp [hxt, hyt, parseInt_intText_px, jsOrNum_some_zero]

theorem absolute_roundtrip_whole_pixels_witness :
    sampleRecord.isPdf = false ∧ sampleRecord.x = ((100 : ℤ) : ℚ) ∧
    sampleRecord.y = ((50 : ℤ) : ℚ) ∧
    emptyPage.browser.lengthText sampleRecord.x = intText 100 ++ "px" ∧
    emptyPage.browser.colorText sampleRecord.color = "rgb(255, 247, 64)" ∧
    (saveThenLoad (createStickyNote emptyPage sampleRecord) 1000 800 false).notes.length =
      emptyPage.notes.length + 1 :=
  ⟨rfl, by simp [sampleRecord], by simp [sampleRecord],
    decimalLengthText_intCast 100, by decide,
    (absolute_roundtrip_whole_pixels emptyPage sampleRecord 100 50 1000 800 false rfl
      (by simp [sampleRecord]) (by simp [sampleRecord])
      (decimalLengthText_intCast 100) (decimalLengthText_intCast 50)
      (by decide) (by decide) (by decide) (by decide)).1⟩

/-! ## Viewport resize of PDF notes (C3) -/

/-- C3 fails when `isPdfPage` is false: the PDF-mode note with ratios
`(1/2, 1/4)` rendered at `(500, 200)` in a `1000 x 800` viewport stays at
`(500, 200)` after a resize to `600 x 400`, not at `(300, 100)`. -/
theorem resize_ignored_without_pdf_flag :
    undetectedPdfPage.isPdfPage = false ∧
    (onResize undetectedPdfPage 600 400).notes.map
        (fun n => (n.dataIsPdf, n.dataXRatio, n.dataYRatio, n.left, n.top)) =
      [(true, some (1 / 2), some (1 / 4), 500, 200)] ∧
    (500 : ℚ) ≠ 1 / 2 * 600 ∧ (200 : ℚ) ≠ 1 / 4 * 400 := by
  refine ⟨rfl, ?_, by norm_num, by norm_num⟩
  simp [onResize, repositionPdfNotes, undetectedPdfPage, createStickyNote, emptyPage, freshPage,
    buildNote, pdfRecord]
  norm_num

/-- C3, amended to pages on which `isPdfPage` is set: after a resize to
`(W', H')` every note carrying `xRatio` and `yRatio` is rendered at
`left = xRatio * W'`, `top = yRatio * H'`, its ratios and the rest of the note
unchanged; a note created with `isPdf = true` carries both ratios. -/
theorem resize_repositions_on_pdf_page (p : Page) (W' H' : ℚ) (hpdf : p.isPdfPage = true) :
    (onResize p W' H').notes.length = p.notes.length ∧
    (∀ (i : Nat) (el : NoteElement) (xr yr : ℚ),
      p.notes.get? i = some el → el.dataXRatio = some xr → el.dataYRatio = some yr →
      (onResize p W' H').notes.get? i =
        some { el with left := xr * W', top := yr * H' }) ∧
    (∀ (browser : Browser) (W H : ℚ) (focus : Bool) (r : NoteRecord), r.isPdf = true →
      ∃ xr yr, (buildNote browser W H focus r).dataXRatio = some xr ∧
        (buildNote browser W H focus r).dataYRatio = some yr) := by
  refine ⟨by simp [onResize, repositionPdfNotes, hpdf], ?_, ?_⟩
  · intro i el xr yr hi hx hy
    simp only [onResize, repositionPdfNotes, hpdf, List.get?_eq_getElem?] at hi ⊢
    simp [List.getElem?_map, hi, hx, hy, parseFloat]
  · intro browser W H focus r hr
    simp [buildNote, hr]

theorem resize_repositions_on_pdf_page_witness :
    ({ undetectedPdfPage with isPdfPage := true } : Page).isPdfPage = true ∧
    (onResize { undetectedPdfPage with isPdfPage := true } 600 400).notes.length =
      ({ undetectedPdfPage with isPdfPage := true } : Page).notes.length :=
  ⟨rfl, (resize_repositions_on_pdf_page { undetectedPdfPage with isPdfPage := true } 600 400 rfl).1⟩

/-! ## Focus Mode (C4) -/

/-- C4 fails on an empty note: `applyFocusMode(true)` marks the rendered note
with empty text as hidden. -/
theorem applyFocusMode_hides_empty_note :
    (createStickyNote emptyPage emptyNote).notes.map (fun n => (n.value, n.hidden)) =
      [("", false)] ∧
    (applyFocusMode (createStickyNote emptyPage emptyNote) true).notes.map
        (fun n => (n.value, n.hidden)) = [("", true)] ∧
    (onMessage (createStickyNote emptyPage emptyNote) (.toggleFocusMode true) 0).notes.map
        (fun n => (n.value, n.hidden)) = [("", true)] := by
  decide

/-- C4, amended: `applyFocusMode(true)` marks every rendered note as hidden,
whatever its text, and `applyFocusMode(false)` leaves none marked; only
`createStickyNote` spares empty notes, a note created while Focus Mode is
active being marked hidden exactly when its content is not empty. -/
theorem applyFocusMode_marks_all (p : Page) :
    (applyFocusMode p true).notes = p.notes.map (fun n => { n with hidden := true }) ∧
    (∀ n ∈ (applyFocusMode p true).notes, n.hidden = true) ∧
    (∀ n ∈ (applyFocusMode p false).notes, n.hidden = false) ∧
    (∀ enabled, (onMessage p (.toggleFocusMode enabled) 0) = applyFocusMode p enabled) ∧
    (∀ enabled, (applyFocusMode p enabled).isFocusModeActive = enabled) ∧
    (∀ (browser : Browser) (W H : ℚ) (r : NoteRecord),
      (buildNote browser W H true r).hidden = (r.content != "") ∧
      (buildNote browser W H false r).hidden = false) := by
  refine ⟨rfl, ?_, ?_, fun _ => rfl, fun _ => rfl, ?_⟩
  · intro n hn
    simp only [applyFocusMode, List.mem_map] at hn
    obtain ⟨m, _, rfl⟩ := hn
    rfl
  · intro n hn
    simp only [applyFocusMode, List.mem_map] at hn
    obtain ⟨m, _, rfl⟩ := hn
    rfl
  · intro browser W H r
    simp [buildNote]

theorem applyFocusMode_marks_all_witness :
    (applyFocusMode storedElsewherePage true).notes.map NoteElement.hidden = [true] ∧
    (applyFocusMode (applyFocusMode storedElsewherePage true) false).notes.map
      NoteElement.hidden = [false] := by
  rw [(applyFocusMode_marks_all storedElsewherePage).1]
  decide

/-! ## Lemmas on rounding to a double -/

theorem roundHalfEven_le_add_half (x : ℚ) : (roundHalfEven x : ℚ) ≤ x + 1 / 2 := by
  have hf : (⌊x⌋ : ℚ) ≤ x := Int.floor_le x
  unfold roundHalfEven
  split
  · linarith
  · next h1 =>
    have h2 : 1 / 2 ≤ x - ⌊x⌋ := not_lt.mp h1
    split
    · push_cast; linarith
    · split
      · linarith
      · push_cast; linarith

theorem roundHalfEven_nonneg (x : ℚ) (hx : 0 ≤ x) : 0 ≤ roundHalfEven x := by
  have hf : 0 ≤ ⌊x⌋ := Int.floor_nonneg.mpr hx
  unfold roundHalfEven
  split
  · exact hf
  · split
    · omega
    · split <;> omega

theorem roundHalfEven_le_int (x : ℚ) (n : ℤ) (hx : x ≤ n) : roundHalfEven x ≤ n := by
  have hf : (⌊x⌋ : ℚ) ≤ x := Int.floor_le x
  have hfn : ⌊x⌋ ≤ n := Int.floor_le_iff.mpr (by linarith)
  have hstep : 1 / 2 ≤ x - ⌊x⌋ → ⌊x⌋ + 1 ≤ n := by
    intro h
    have : (⌊x⌋ : ℚ) < n := by linarith
    have : ⌊x⌋ < n := by exact_mod_cast this
    omega
  unfold roundHalfEven
  split
  · exact hfn
  · next h1 =>
    have h2 : 1 / 2 ≤ x - ⌊x⌋ := not_lt.mp h1
    split
    · exact hstep h2
    · split
      · exact hfn
      · exact hstep h2

theorem toDouble_nonneg (q : ℚ) (hq : 0 ≤ q) : 0 ≤ toDouble q := by
  unfold toDouble
  split
  · exact le_rfl
  · have hu : (0 : ℚ) < 2 ^ (Int.log 2 |q| - 52) := zpow_pos (by norm_num) _
    have hr := roundHalfEven_nonneg (q / 2 ^ (Int.log 2 |q| - 52)) (div_nonneg hq hu.le)
    exact mul_nonneg (by exact_mod_cast hr) hu.le

/-- Rounding to a double raises a non-negative number by at most one part in
`2 ^ 53`. -/
theorem toDouble_le_mul (q : ℚ) (hq : 0 ≤ q) : toDouble q ≤ q * (1 + 1 / 2 ^ 53) := by
  unfold toDouble
  split
  · next h0 => simp [h0]
  · next h0 =>
    have hpos : 0 < q := lt_of_le_of_ne hq (Ne.symm h0)
    rw [abs_of_pos hpos]
    have hlog : (2 : ℚ) ^ Int.log 2 q ≤ q := by
      have := Int.zpow_log_le_self (b := 2) (by norm_num) hpos
      simpa using this
    have hu : (0 : ℚ) < 2 ^ (Int.log 2 q - 52) := zpow_pos (by norm_num) _
    have hsplit : (2 : ℚ) ^ (Int.log 2 q - 52) = 2 ^ Int.log 2 q / 2 ^ 52 := by
      rw [zpow_sub₀ (by norm_num)]
      norm_num
    have hr := roundHalfEven_le_add_half (q / 2 ^ (Int.log 2 q - 52))
    calc (roundHalfEven (q / 2 ^ (Int.log 2 q - 52)) : ℚ) * 2 ^ (Int.log 2 q - 52)
        ≤ (q / 2 ^ (Int.log 2 q - 52) + 1 / 2) * 2 ^ (Int.log 2 q - 52) :=
          mul_le_mul_of_nonneg_right hr hu.le
      _ = q + 2 ^ (Int.log 2 q - 52) / 2 := by
          field_simp
          ring
      _ ≤ q * (1 + 1 / 2 ^ 53) := by
          rw [hsplit]
          have : (2 : ℚ) ^ Int.log 2 q / 2 ^ 52 / 2 ≤ q / 2 ^ 52 / 2 := by
            apply div_le_div_of_nonneg_right _ (by norm_num)
            exact div_le_div_of_nonneg_right hlog (by norm_num)
          have e : q * (1 + 1 / 2 ^ 53) = q + q / 2 ^ 52 / 2 := by ring
          linarith

/-- A number between `0` and `1` rounds to a double between `0` and `1`. -/
theorem toDouble_le_one (q : ℚ) (hq : 0 ≤ q) (h1 : q ≤ 1) : toDouble q ≤ 1 := by
  unfold toDouble
  split
  · norm_num
  · next h0 =>
    have hpos : 0 < q := lt_of_le_of_ne hq (Ne.symm h0)
    rw [abs_of_pos hpos]
    have hlog : Int.log 2 q < 1 := by
      rw [← Int.lt_zpow_iff_log_lt (by norm_num) hpos]
      norm_num
      linarith
    obtain ⟨k, hk⟩ : ∃ k : ℕ, Int.log 2 q - 52 = -(k : ℤ) :=
      ⟨(52 - Int.log 2 q).toNat, by omega⟩
    rw [hk, zpow_neg, zpow_natCast]
    have hp : (0 : ℚ) < 2 ^ k := by positivity
    have hle : q / (2 ^ k)⁻¹ ≤ ((2 ^ k : ℤ) : ℚ) := by
      rw [div_inv_eq_mul]
      push_cast
      calc q * 2 ^ k ≤ 1 * 2 ^ k := mul_le_mul_of_nonneg_right h1 hp.le
        _ = 2 ^ k := one_mul _
    have hr := roundHalfEven_le_int _ _ hle
    have hr' : (roundHalfEven (q / (2 ^ k)⁻¹) : ℚ) ≤ 2 ^ k := by exact_mod_cast hr
    calc (roundHalfEven (q / (2 ^ k)⁻¹) : ℚ) * (2 ^ k)⁻¹
        ≤ 2 ^ k * (2 ^ k)⁻¹ := mul_le_mul_of_nonneg_right hr' (inv_nonneg.mpr hp.le)
      _ = 1 := mul_inv_cancel₀ hp.ne'

/-- A quotient of doubles `left / W` with `0 ≤ left ≤ W` lies in `[0, 1]`. -/
theorem jsDiv_unit (a b : ℚ) (hb : 0 < b) (ha : 0 ≤ a) (hab : a ≤ b) :
    0 ≤ jsDiv a b ∧ jsDiv a b ≤ 1 :=
  ⟨toDouble_nonneg _ (div_nonneg ha hb.le),
    toDouble_le_one _ (div_nonneg ha hb.le) ((div_le_one hb).mpr hab)⟩

/-- Multiplying a stored ratio back by the viewport size gives at most the
pixel position raised by two roundings. -/
theorem jsMul_jsDiv_le (a b : ℚ) (hb : 0 < b) (ha : 0 ≤ a) :
    0 ≤ jsMul (jsDiv a b) b ∧ jsMul (jsDiv a b) b ≤ a * (1 + 1 / 2 ^ 53) ^ 2 := by
  have hd0 : 0 ≤ jsDiv a b := toDouble_nonneg _ (div_nonneg ha hb.le)
  have hd : jsDiv a b ≤ a / b * (1 + 1 / 2 ^ 53) := toDouble_le_mul _ (div_nonneg ha hb.le)
  have hm0 : 0 ≤ jsDiv a b * b := mul_nonneg hd0 hb.le
  have hm : jsMul (jsDiv a b) b ≤ jsDiv a b * b * (1 + 1 / 2 ^ 53) := toDouble_le_mul _ hm0
  refine ⟨toDouble_nonneg _ hm0, hm.trans ?_⟩
  have h1 : jsDiv a b * b ≤ a * (1 + 1 / 2 ^ 53) := by
    calc jsDiv a b * b ≤ a / b * (1 + 1 / 2 ^ 53) * b := mul_le_mul_of_nonneg_right hd hb.le
      _ = a * (1 + 1 / 2 ^ 53) := by
          field_simp
          ring
  calc jsDiv a b * b * (1 + 1 / 2 ^ 53) ≤ a * (1 + 1 / 2 ^ 53) * (1 + 1 / 2 ^ 53) :=
        mul_le_mul_of_nonneg_right h1 (by norm_num)
    _ = a * (1 + 1 / 2 ^ 53) ^ 2 := by ring

/-! ## Evaluating the rounding at given numbers -/

theorem roundHalfEven_eq (x : ℚ) (n : ℤ) (hlo : (n : ℚ) - 1 / 2 < x) (hhi : x < n + 1 / 2) :
    roundHalfEven x = n := by
  by_cases hx : (n : ℚ) ≤ x
  · have hf : ⌊x⌋ = n := Int.floor_eq_iff.mpr ⟨hx, by linarith⟩
    unfold roundHalfEven
    rw [hf, if_pos (by linarith)]
  · have hf : ⌊x⌋ = n - 1 := Int.floor_eq_iff.mpr ⟨by push_cast; linarith, by push_cast; linarith⟩
    unfold roundHalfEven
    rw [hf, if_neg (by push_cast; linarith), if_pos (by push_cast; linarith)]
    omega

theorem toDouble_eq (q : ℚ) (e n : ℤ) (h1 : (2 : ℚ) ^ e ≤ q) (h2 : q < 2 ^ (e + 1))
    (hlo : (n : ℚ) - 1 / 2 < q / 2 ^ (e - 52)) (hhi : q / 2 ^ (e - 52) < n + 1 / 2) :
    toDouble q = n * 2 ^ (e - 52) := by
  have hpos : 0 < q := lt_of_lt_of_le (zpow_pos (by norm_num) _) h1
  have hlog : Int.log 2 q = e := by
    apply le_antisymm
    · have : Int.log 2 q < e + 1 := by
        rw [← Int.lt_zpow_iff_log_lt (by norm_num) hpos]
        simpa using h2
      omega
    · rw [← Int.zpow_le_iff_le_log (by norm_num) hpos]
      simpa using h1
  unfold toDouble
  rw [if_neg hpos.ne', abs_of_pos hpos, hlog, roundHalfEven_eq _ n hlo hhi]

/-- The double stored for `960 / 1180`, and its product with `1180`. -/
theorem jsDiv_960_1180 :
    jsDiv 960 1180 = 1831972729777829 / 2251799813685248 ∧
    jsMul (jsDiv 960 1180) 1180 = 8444249301319681 / 8796093022208 := by
  have h : jsDiv 960 1180 = 1831972729777829 / 2251799813685248 := by
    unfold jsDiv
    rw [toDouble_eq (960 / 1180) (-1) 7327890919111316 (by norm_num) (by norm_num)
      (by norm_num) (by norm_num)]
    norm_num
  refine ⟨h, ?_⟩
  unfold jsMul
  rw [h, toDouble_eq _ 9 8444249301319681 (by norm_num) (by norm_num)
    (by norm_num) (by norm_num)]
  norm_num

/-! ## Drag and drop: lemmas -/

/-- Without clamping, the moves of a drag add up to the displacement between
the last pointer position and the one recorded in `pos3`, `pos4`. -/
theorem elementDrag_foldl_absolute (W H w h : ℚ) (moves : List MouseEvent) (d : Drag) :
    (moves.foldl (elementDrag false W H w h) d).element =
      { d.element with
        left := d.element.left +
          ((lastPointer ⟨d.pos3, d.pos4⟩ moves).clientX - d.pos3)
        top := d.element.top +
          ((lastPointer ⟨d.pos3, d.pos4⟩ moves).clientY - d.pos4) } := by
  induction moves generalizing d with
  | nil => simp [lastPointer]
  | cons e es ih =>
    rw [List.foldl_cons, ih]
    cases es with
    | nil => simp [lastPointer, elementDrag]; constructor <;> ring
    | cons m ms => simp [lastPointer, elementDrag]; constructor <;> ring

/-- One clamped move leaves a PDF note between `0` and
`max 0 (viewport - size)` on both axes, wherever it was before. -/
theorem elementDrag_pdf_clamped (W H w h : ℚ) (d : Drag) (e : MouseEvent) :
    0 ≤ (elementDrag true W H w h d e).element.left ∧
    (elementDrag true W H w h d e).element.left ≤ max 0 (W - w) ∧
    0 ≤ (elementDrag true W H w h d e).element.top ∧
    (elementDrag true W H w h d e).element.top ≤ max 0 (H - h) := by
  simp only [elementDrag, if_true]
  refine ⟨le_max_left _ _, max_le_max le_rfl (min_le_right _ _), le_max_left _ _,
    max_le_max le_rfl (min_le_right _ _)⟩

/-- A non-empty sequence of moves ends with a call of `elementDrag`. -/
theorem foldl_elementDrag_last (isPdf : Bool) (W H w h : ℚ) (moves : List MouseEvent)
    (d : Drag) (hne : moves ≠ []) :
    ∃ d0 e, moves.foldl (elementDrag isPdf W H w h) d = elementDrag isPdf W H w h d0 e := by
  induction moves using List.reverseRecOn with
  | nil => exact absurd rfl hne
  | append_singleton ms m _ =>
    exact ⟨ms.foldl (elementDrag isPdf W H w h) d, m, by simp [List.foldl_append]⟩

/-- The position of a PDF note when the pointer is released: clamped if the
pointer moved, the position before the drag otherwise. -/
theorem foldl_elementDrag_pdf_bounds (W H w h : ℚ) (moves : List MouseEvent) (d : Drag)
    (down : MouseEvent) (lx ly : ℚ)
    (hmx : max 0 (W - w) ≤ lx) (hmy : max 0 (H - h) ≤ ly)
    (hstart : moves ≠ [] ∨
      (0 ≤ d.element.left ∧ d.element.left ≤ lx ∧ 0 ≤ d.element.top ∧ d.element.top ≤ ly)) :
    0 ≤ (moves.foldl (elementDrag true W H w h) (dragMouseDown d down)).element.left ∧
    (moves.foldl (elementDrag true W H w h) (dragMouseDown d down)).element.left ≤ lx ∧
    0 ≤ (moves.foldl (elementDrag true W H w h) (dragMouseDown d down)).element.top ∧
    (moves.foldl (elementDrag true W H w h) (dragMouseDown d down)).element.top ≤ ly := by
  by_cases hne : moves = []
  · subst hne
    rcases hstart with h0 | h0
    · exact absurd rfl h0
    · simpa [dragMouseDown] using h0
  · obtain ⟨d0, e, he⟩ := foldl_elementDrag_last true W H w h moves (dragMouseDown d down) hne
    rw [he]
    have hc := elementDrag_pdf_clamped W H w h d0 e
    exact ⟨hc.1, hc.2.1.trans hmx, hc.2.2.1, hc.2.2.2.trans hmy⟩

theorem dragGesture_pdf_ratios (W H w h : ℚ) (d : Drag) (down : MouseEvent)
    (moves : List MouseEvent) :
    (dragGesture true W H w h d down moves).dataXRatio =
      some (jsDiv
        (moves.foldl (elementDrag true W H w h) (dragMouseDown d down)).element.left W) ∧
    (dragGesture true W H w h d down moves).dataYRatio =
      some (jsDiv
        (moves.foldl (elementDrag true W H w h) (dragMouseDown d down)).element.top H) := by
  simp [dragGesture, closeDragElement, parseFloat]

/-! ## Drag of a PDF note stays in the viewport (C2) -/

theorem dragGesture_pdf_position (W H w h : ℚ) (d : Drag) (down : MouseEvent)
    (moves : List MouseEvent) :
    (dragGesture true W H w h d down moves).left =
      (moves.foldl (elementDrag true W H w h) (dragMouseDown d down)).element.left ∧
    (dragGesture true W H w h d down moves).top =
      (moves.foldl (elementDrag true W H w h) (dragMouseDown d down)).element.top := by
  simp [dragGesture, closeDragElement]

/-- The exact product of a stored ratio with the viewport size is at most the
pixel position raised by one rounding. -/
theorem jsDiv_mul_le (a b : ℚ) (hb : 0 < b) (ha : 0 ≤ a) :
    0 ≤ jsDiv a b * b ∧ jsDiv a b * b ≤ a * (1 + 1 / 2 ^ 53) := by
  have hd0 : 0 ≤ jsDiv a b := toDouble_nonneg _ (div_nonneg ha hb.le)
  have hd : jsDiv a b ≤ a / b * (1 + 1 / 2 ^ 53) := toDouble_le_mul _ (div_nonneg ha hb.le)
  refine ⟨mul_nonneg hd0 hb.le, ?_⟩
  calc jsDiv a b * b ≤ a / b * (1 + 1 / 2 ^ 53) * b := mul_le_mul_of_nonneg_right hd hb.le
    _ = a * (1 + 1 / 2 ^ 53) := by
        field_simp
        ring

/-- C2 fails in two ways. For a note wider than the viewport (`w = 300`,
`W = 200`) a move clamps `left` to `0`, the stored `xRatio` is `0`, and
`xRatio * W = 0` is above `W - w = -100`. For a note that fits (`w = 220`,
`W = 1180`) dragged to the right edge, `left` is `960`, the stored `xRatio` is
the double nearest to `960 / 1180`, and `xRatio * W` is above `W - w = 960`,
both as an exact product and as a product of doubles. -/
theorem pdf_drag_leaves_range :
    ((dragGesture true 200 600 300 100 { element := cornerPdfNote } ⟨10, 10⟩
        [⟨15, 12⟩]).dataXRatio = some 0 ∧
      ¬ ((0 : ℚ) * 200 ≤ 200 - 300)) ∧
    ((dragGesture true 1180 800 220 180 { element := cornerPdfNote } ⟨10, 10⟩
        [⟨2000, 10⟩]).left = 960 ∧
      (dragGesture true 1180 800 220 180 { element := cornerPdfNote } ⟨10, 10⟩
        [⟨2000, 10⟩]).dataXRatio = some (1831972729777829 / 2251799813685248) ∧
      ¬ ((1831972729777829 / 2251799813685248 : ℚ) * 1180 ≤ 1180 - 220) ∧
      ¬ (jsMul (1831972729777829 / 2251799813685248) 1180 ≤ 1180 - 220)) := by
  have hleft : (dragGesture true 1180 800 220 180 { element := cornerPdfNote } ⟨10, 10⟩
      [⟨2000, 10⟩]).left = 960 := by
    simp [dragGesture, closeDragElement, elementDrag, dragMouseDown, cornerPdfNote, buildNote]
    norm_num
  have hfold : (List.foldl (elementDrag true 1180 800 220 180)
      (dragMouseDown { element := cornerPdfNote } ⟨10, 10⟩) [⟨2000, 10⟩]).element.left = 960 := by
    rw [← (dragGesture_pdf_position 1180 800 220 180 _ _ _).1]
    exact hleft
  refine ⟨⟨?_, by norm_num⟩, hleft, ?_, by norm_num, ?_⟩
  · simp [dragGesture, closeDragElement, elementDrag, dragMouseDown, cornerPdfNote, buildNote,
      parseFloat, jsDiv, toDouble]
    norm_num
  · rw [(dragGesture_pdf_ratios 1180 800 220 180 _ _ _).1, hfold, jsDiv_960_1180.1]
  · rw [← jsDiv_960_1180.1, jsDiv_960_1180.2]
    norm_num

/-- C2, amended to notes that fit the viewport and to double rounding: for a
PDF note of size `(w, h)` with `w ≤ W`, `h ≤ H` in a viewport of positive size
`(W, H)`, after pointer-down, any moves and pointer-up, provided the pointer
moved at least once or the note was in range when the drag began, the `left`
and `top` of the note at pointer-up lie in `[0, W - w]` and `[0, H - h]`, the
stored ratios are the doubles `left / W` and `top / H`, and the position
recomputed from them lies between `0` and `W - w` (`H - h`) raised by one
rounding for the exact product and by two roundings for the product of
doubles. -/
theorem pdf_drag_stays_in_viewport (W H w h : ℚ) (d : Drag) (down : MouseEvent)
    (moves : List MouseEvent) (hW : 0 < W) (hH : 0 < H) (hw : w ≤ W) (hh : h ≤ H)
    (hstart : moves ≠ [] ∨
      (0 ≤ d.element.left ∧ d.element.left ≤ W - w ∧
        0 ≤ d.element.top ∧ d.element.top ≤ H - h)) :
    ∃ xr yr, (dragGesture true W H w h d down moves).dataXRatio = some xr ∧
      (dragGesture true W H w h d down moves).dataYRatio = some yr ∧
      xr = jsDiv (dragGesture true W H w h d down moves).left W ∧
      yr = jsDiv (dragGesture true W H w h d down moves).top H ∧
      (0 ≤ (dragGesture true W H w h d down moves).left ∧
        (dragGesture true W H w h d down moves).left ≤ W - w ∧
        0 ≤ (dragGesture true W H w h d down moves).top ∧
        (dragGesture true W H w h d down moves).top ≤ H - h) ∧
      (0 ≤ xr * W ∧ xr * W ≤ (W - w) * (1 + 1 / 2 ^ 53) ∧
        0 ≤ yr * H ∧ yr * H ≤ (H - h) * (1 + 1 / 2 ^ 53)) ∧
      (0 ≤ jsMul xr W ∧ jsMul xr W ≤ (W - w) * (1 + 1 / 2 ^ 53) ^ 2 ∧
        0 ≤ jsMul yr H ∧ jsMul yr H ≤ (H - h) * (1 + 1 / 2 ^ 53) ^ 2) := by
  obtain ⟨hx, hy⟩ := dragGesture_pdf_ratios W H w h d down moves
  obtain ⟨hl, ht⟩ := dragGesture_pdf_position W H w h d down moves
  have hb := foldl_elementDrag_pdf_bounds W H w h moves d down (W - w) (H - h)
    (max_le (by linarith) le_rfl) (max_le (by linarith) le_rfl) hstart
  rw [← hl] at hb hx
  rw [← ht] at hb hy
  obtain ⟨hl0, hl1, ht0, ht1⟩ := hb
  have hx1 := jsDiv_mul_le _ W hW hl0
  have hy1 := jsDiv_mul_le _ H hH ht0
  have hx2 := jsMul_jsDiv_le _ W hW hl0
  have hy2 := jsMul_jsDiv_le _ H hH ht0
  have he : (0 : ℚ) ≤ 1 + 1 / 2 ^ 53 := by norm_num
  have he2 : (0 : ℚ) ≤ (1 + 1 / 2 ^ 53) ^ 2 := by positivity
  exact ⟨_, _, hx, hy, rfl, rfl, ⟨hl0, hl1, ht0, ht1⟩,
    ⟨hx1.1, hx1.2.trans (mul_le_mul_of_nonneg_right hl1 he),
      hy1.1, hy1.2.trans (mul_le_mul_of_nonneg_right ht1 he)⟩,
    ⟨hx2.1, hx2.2.trans (mul_le_mul_of_nonneg_right hl1 he2),
      hy2.1, hy2.2.trans (mul_le_mul_of_nonneg_right ht1 he2)⟩⟩

theorem pdf_drag_stays_in_viewport_witness :
    (0 : ℚ) < 1180 ∧ (0 : ℚ) < 800 ∧ (220 : ℚ) ≤ 1180 ∧ (180 : ℚ) ≤ 800 ∧
    ∃ xr yr,
      (dragGesture true 1180 800 220 180 { element := cornerPdfNote } ⟨10, 10⟩
        [⟨2000, -50⟩]).dataXRatio = some xr ∧
      (dragGesture true 1180 800 220 180 { element := cornerPdfNote } ⟨10, 10⟩
        [⟨2000, -50⟩]).dataYRatio = some yr ∧
      0 ≤ jsMul xr 1180 ∧ jsMul xr 1180 ≤ (1180 - 220) * (1 + 1 / 2 ^ 53) ^ 2 ∧
      0 ≤ jsMul yr 800 ∧ jsMul yr 800 ≤ (800 - 180) * (1 + 1 / 2 ^ 53) ^ 2 := by
  obtain ⟨xr, yr, hx, hy, -, -, -, -, hb⟩ :=
    pdf_drag_stays_in_viewport 1180 800 220 180 { element := cornerPdfNote } ⟨10, 10⟩
      [⟨2000, -50⟩] (by norm_num) (by norm_num) (by norm_num) (by norm_num)
      (Or.inl (by simp))
  exact ⟨by norm_num, by norm_num, by norm_num, by norm_num, xr, yr, hx, hy, hb⟩

/-! ## Ratios of PDF notes and the unit square (C8) -/

/-- C8 fails in a narrow viewport: on a PDF page of width `200`,
`INIT_NOTE_PLACEMENT` creates a note at `x = -44` with `xRatio = -44 / 200`. -/
theorem placement_ratio_negative_in_narrow_viewport :
    narrowPdfPage.isPdfPage = true ∧ (0 : ℚ) < narrowPdfPage.innerWidth ∧
    (0 : ℚ) < narrowPdfPage.innerHeight ∧
    (onMessage narrowPdfPage (.initNotePlacement "#fff740" "Arial") 1700000000005).notes.map
      NoteElement.dataXRatio = [some (-11 / 50)] ∧
    ¬ ((0 : ℚ) ≤ -11 / 50) := by
  refine ⟨rfl, by norm_num [narrowPdfPage, freshPage], by norm_num [narrowPdfPage, freshPage],
    ?_, by norm_num⟩
  simp [onMessage, narrowPdfPage, freshPage, saveNotes, createStickyNote, buildNote]
  norm_num

/-- C8, amended: the ratios of a PDF note lie in `[0,1]` (i) for the note that
`INIT_NOTE_PLACEMENT` creates on a PDF page whose viewport is at least 244
wide and 24 high, (ii) after a drag in a viewport of positive size of a note
of non-negative size, when the pointer moved at least once or the note lay
inside the viewport before, and (iii) for a note restored by
`createStickyNote` from a record whose ratios lie in `[0,1]`, which keeps them
as they are. -/
theorem pdf_ratios_in_unit_square :
    (∀ (p : Page) (color font : String) (now : Nat),
      p.isPdfPage = true → 244 ≤ p.innerWidth → 24 ≤ p.innerHeight →
      ∃ el xr yr,
        (onMessage p (.initNotePlacement color font) now).notes = p.notes ++ [el] ∧
        el.dataXRatio = some xr ∧ el.dataYRatio = some yr ∧
        0 ≤ xr ∧ xr ≤ 1 ∧ 0 ≤ yr ∧ yr ≤ 1) ∧
    (∀ (W H w h : ℚ) (d : Drag) (down : MouseEvent) (moves : List MouseEvent),
      0 < W → 0 < H → 0 ≤ w → 0 ≤ h →
      (moves ≠ [] ∨
        (0 ≤ d.element.left ∧ d.element.left ≤ W ∧ 0 ≤ d.element.top ∧ d.element.top ≤ H)) →
      ∃ xr yr, (dragGesture true W H w h d down moves).dataXRatio = some xr ∧
        (dragGesture true W H w h d down moves).dataYRatio = some yr ∧
        0 ≤ xr ∧ xr ≤ 1 ∧ 0 ≤ yr ∧ yr ≤ 1) ∧
    (∀ (browser : Browser) (W H : ℚ) (focus : Bool) (note : NoteRecord) (xr yr : ℚ),
      note.isPdf = true → note.xRatio = some xr → note.yRatio = some yr →
      (buildNote browser W H focus (restoreArg note)).dataXRatio = some xr ∧
      (buildNote browser W H focus (restoreArg note)).dataYRatio = some yr) := by
  refine ⟨?_, ?_, ?_⟩
  · intro p color font now hpdf hW hH
    have hW0 : (0 : ℚ) < p.innerWidth := by linarith
    have hH0 : (0 : ℚ) < p.innerHeight := by linarith
    refine ⟨buildNote p.browser p.innerWidth p.innerHeight p.isFocusModeActive
        { id := toString now, x := p.innerWidth - 244, y := 24, color := color, content := ""
          font := font, isPdf := true
          xRatio := some ((p.innerWidth - 244) / p.innerWidth)
          yRatio := some (24 / p.innerHeight) },
      (p.innerWidth - 244) / p.innerWidth, 24 / p.innerHeight, ?_, ?_, ?_, ?_⟩
    · simp only [onMessage, hpdf, if_true, saveNotes, createStickyNote]
    · simp [buildNote]
    · simp [buildNote]
    · refine ⟨div_nonneg (by linarith) hW0.le, ?_, div_nonneg (by norm_num) hH0.le, ?_⟩
      · rw [div_le_one hW0]; linarith
      · rw [div_le_one hH0]; exact hH
  · intro W H w h d down moves hW hH hw hh hstart
    obtain ⟨hx, hy⟩ := dragGesture_pdf_ratios W H w h d down moves
    have hb := foldl_elementDrag_pdf_bounds W H w h moves d down W H
      (max_le hW.le (by linarith)) (max_le hH.le (by linarith)) hstart
    have hxu := jsDiv_unit _ W hW hb.1 hb.2.1
    have hyu := jsDiv_unit _ H hH hb.2.2.1 hb.2.2.2
    exact ⟨_, _, hx, hy, hxu.1, hxu.2, hyu.1, hyu.2⟩
  · intro browser W H focus note xr yr hp hx hy
    simp [buildNote, restoreArg, hp, hx, hy]

theorem pdf_ratios_in_unit_square_witness :
    widePdfPage.isPdfPage = true ∧ (244 : ℚ) ≤ widePdfPage.innerWidth ∧
    (24 : ℚ) ≤ widePdfPage.innerHeight ∧
    ∃ el xr yr,
      (onMessage widePdfPage (.initNotePlacement "#fff740" "Arial") 1700000000005).notes =
        widePdfPage.notes ++ [el] ∧
      el.dataXRatio = some xr ∧ el.dataYRatio = some yr ∧
      0 ≤ xr ∧ xr ≤ 1 ∧ 0 ≤ yr ∧ yr ≤ 1 :=
  ⟨rfl, by norm_num [widePdfPage, freshPage], by norm_num [widePdfPage, freshPage],
    pdf_ratios_in_unit_square.1 widePdfPage "#fff740" "Arial" 1700000000005 rfl
      (by norm_num [widePdfPage, freshPage]) (by norm_num [widePdfPage, freshPage])⟩

/-! ## Drag of an absolute note follows the pointer (C10) -/

/-- C10: for an absolute-mode note, pointer-down followed by any sequence of
moves and pointer-up leaves the note displaced by exactly the displacement of
the pointer between pointer-down and its last position, whatever the
intermediate positions, and changes nothing else on the note. -/
theorem absolute_drag_follows_pointer (W H w h : ℚ) (d : Drag) (down : MouseEvent)
    (moves : List MouseEvent) :
    dragGesture false W H w h d down moves =
      { d.element with
        left := d.element.left + ((lastPointer down moves).clientX - down.clientX)
        top := d.element.top + ((lastPointer down moves).clientY - down.clientY) } := by
  simp only [dragGesture, closeDragElement, Bool.false_eq_true, if_false]
  rw [elementDrag_foldl_absolute]
  rfl

/-! ## Placement mode (C9) -/

theorem onClick_not_placing (p : Page) (e : ClickEvent) (h : p.isPlacingNote = false) :
    onClick p e = p := by
  simp [onClick, h]

theorem onClick_pdf_page (p : Page) (e : ClickEvent) (h : p.isPdfPage = true) :
    onClick p e = p := by
  simp [onClick, h]

theorem onClick_in_note (p : Page) (e : ClickEvent) (h : e.targetInNote = true) :
    onClick p e = p := by
  unfold onClick
  split
  · rfl
  · simp [h]

/-- Clicks leave the page as it is, as long as each of them is ignored. -/
theorem foldl_onClick_ignored (clicks : List ClickEvent) (p : Page)
    (h : ∀ e ∈ clicks, onClick p e = p) : clicks.foldl onClick p = p := by
  induction clicks with
  | nil => rfl
  | cons e es ih =>
    rw [List.foldl_cons, h e (List.mem_cons_self _ _)]
    exact ih fun e' he' => h e' (List.mem_cons_of_mem _ he')

/-- C9: on a normal page `INIT_NOTE_PLACEMENT` arms placement and renders
nothing; clicks inside existing notes change nothing and leave placement
armed; the first click outside every note appends exactly one note built by
`createStickyNote` at `(pageX, pageY)` with the payload's colour and font,
empty content and `isPdf = false`, saves, and disarms; later clicks change
nothing. On a PDF page `INIT_NOTE_PLACEMENT` leaves `isPlacingNote` as it was
and no click creates a note. -/
theorem placement_is_one_shot :
    (∀ (p : Page) (color font : String) (now : Nat) (inside later : List ClickEvent)
        (c : ClickEvent),
      p.isPdfPage = false → (∀ e ∈ inside, e.targetInNote = true) → c.targetInNote = false →
      (onMessage p (.initNotePlacement color font) now).isPlacingNote = true ∧
      (onMessage p (.initNotePlacement color font) now).notes = p.notes ∧
      inside.foldl onClick (onMessage p (.initNotePlacement color font) now) =
        onMessage p (.initNotePlacement color font) now ∧
      (onClick (inside.foldl onClick (onMessage p (.initNotePlacement color font) now)) c).notes =
        p.notes ++ [buildNote p.browser p.innerWidth p.innerHeight p.isFocusModeActive
          { id := toString c.now, x := c.pageX, y := c.pageY, color := color, content := ""
            font := font, isPdf := false }] ∧
      (onClick (inside.foldl onClick (onMessage p (.initNotePlacement color font) now)) c).storage
          p.href =
        some (.notes ((onClick (inside.foldl onClick
          (onMessage p (.initNotePlacement color font) now)) c).notes.map
            (recordOf p.browser))) ∧
      (onClick (inside.foldl onClick
        (onMessage p (.initNotePlacement color font) now)) c).isPlacingNote = false ∧
      later.foldl onClick
          (onClick (inside.foldl onClick (onMessage p (.initNotePlacement color font) now)) c) =
        onClick (inside.foldl onClick (onMessage p (.initNotePlacement color font) now)) c) ∧
    (∀ (p : Page) (color font : String) (now : Nat) (clicks : List ClickEvent),
      p.isPdfPage = true →
      (onMessage p (.initNotePlacement color font) now).isPlacingNote = p.isPlacingNote ∧
      clicks.foldl onClick p = p ∧
      clicks.foldl onClick (onMessage p (.initNotePlacement color font) now) =
        onMessage p (.initNotePlacement color font) now) := by
  constructor
  · intro p color font now inside later c hpdf hin hout
    have harm : onMessage p (.initNotePlacement color font) now =
        { p with pendingNoteColor := color, pendingNoteFont := font, isPlacingNote := true
                 bodyCursor := "crosshair" } := by
      simp [onMessage, hpdf]
    have hfold : inside.foldl onClick (onMessage p (.initNotePlacement color font) now) =
        onMessage p (.initNotePlacement color font) now :=
      foldl_onClick_ignored inside _ fun e he => onClick_in_note _ e (hin e he)
    rw [hfold]
    have hplaced : (onClick (onMessage p (.initNotePlacement color font) now) c).isPlacingNote
        = false := by
      simp [harm, onClick, hpdf, hout, saveNotes, createStickyNote]
    refine ⟨by simp [harm], by simp [harm], rfl, ?_, ?_, hplaced, ?_⟩
    · simp [harm, onClick, hpdf, hout, saveNotes, createStickyNote]
    · simp [harm, onClick, hpdf, hout, saveNotes, createStickyNote, Storage.set]
    · exact foldl_onClick_ignored later _ fun e _ => onClick_not_placing _ e hplaced
  · intro p color font now clicks hpdf
    have hmsg : (onMessage p (.initNotePlacement color font) now).isPdfPage = true := by
      simp [onMessage, hpdf, saveNotes, createStickyNote]
    refine ⟨by simp [onMessage, hpdf, saveNotes, createStickyNote], ?_, ?_⟩
    · exact foldl_onClick_ignored clicks _ fun e _ => onClick_pdf_page _ e hpdf
    · exact foldl_onClick_ignored clicks _ fun e _ => onClick_pdf_page _ e hmsg

theorem placement_is_one_shot_witness :
    emptyPage.isPdfPage = false ∧
    (onClick (onMessage emptyPage (.initNotePlacement "#ff7eb9" "Arial") 1700000000006)
        ⟨100, 50, false, 1700000000007⟩).notes.map
      (fun n => (n.dataIsPdf, n.backgroundColor, n.value, n.fontFamily)) =
      [(false, "rgb(255, 126, 185)", "", "Arial")] :=
  ⟨rfl, by
    have h := (placement_is_one_shot.1 emptyPage "#ff7eb9" "Arial" 1700000000006 [] []
      ⟨100, 50, false, 1700000000007⟩ rfl (by simp) rfl).2.2.2.1
    simp only [List.foldl_nil] at h
    rw [h]
    decide⟩

/-! ## Recording (C7) -/

/-- A recorder that no entry of `activeRecorders` refers to is out of reach:
whatever is started, stopped or timed out afterwards, it keeps its state. -/
theorem orphan_keeps_state (events : List AudioEvent) (a : AudioState) (i : Nat) (r : Recorder)
    (hrec : a.recorders.get? i = some r) (horphan : ∀ k, a.activeRecorders k ≠ some i) :
    (events.foldl audioStep a).recorders.get? i = some r := by
  induction events generalizing a with
  | nil => exact hrec
  | cons e es ih =>
    have hi : i < a.recorders.length := by
      rw [List.get?_eq_getElem?] at hrec
      exact (List.getElem?_eq_some_iff.mp hrec).1
    have hstop : ∀ k, (stopRecording a k).recorders.get? i = some r ∧
        ∀ k', (stopRecording a k).activeRecorders k' ≠ some i := by
      intro k
      unfold stopRecording
      split
      · next j hj =>
        have hji : j ≠ i := fun h => horphan k (h ▸ hj)
        split
        · next rj hrj =>
          split
          · refine ⟨?_, ?_⟩
            · simp only
              rw [List.get?_eq_getElem?, List.getElem?_set_ne hji, ← List.get?_eq_getElem?, hrec]
            · intro k'
              simp only
              split
              · simp
              · exact horphan k'
          · exact ⟨hrec, horphan⟩
        · exact ⟨hrec, horphan⟩
      · exact ⟨hrec, horphan⟩
    rw [List.foldl_cons]
    apply ih
    · cases e with
      | start k granted =>
        cases granted with
        | false => simpa [audioStep, startRecording] using hrec
        | true =>
          simp only [audioStep, startRecording, if_true]
          rw [List.get?_eq_getElem?, List.getElem?_append_left hi, ← List.get?_eq_getElem?, hrec]
      | stop k => exact (hstop k).1
      | timer k =>
        simp only [audioStep, autoStopTimer]
        split
        · exact (hstop k).1
        · exact hrec
    · cases e with
      | start k granted =>
        cases granted with
        | false => simpa [audioStep, startRecording] using horphan
        | true =>
          intro k'
          simp only [audioStep, startRecording, if_true]
          split
          · simp only [ne_eq, Option.some.injEq]
            omega
          · exact horphan k'
      | stop k => exact (hstop k).2
      | timer k =>
        simp only [audioStep, autoStopTimer]
        split
        · exact (hstop k).2
        · exact horphan

/-- C7 fails on the code: with a recording active for the note, a second
granted `startRecording` is no no-op. It starts a second recorder and puts it
in `activeRecorders` in place of the first, so two recorders of the note are
recording; the auto-stop timers of both calls and a manual stop then stop the
second recorder only, and the first one is still recording. -/
theorem second_startRecording_orphans_first :
    firstRecording.activeRecorders "1700000000000" = some 0 ∧
    activeRecordings firstRecording "1700000000000" = 1 ∧
    (startRecording firstRecording "1700000000000" true).activeRecorders "1700000000000"
      = some 1 ∧
    (startRecording firstRecording "1700000000000" true).recorders =
      [⟨"1700000000000", .recording⟩, ⟨"1700000000000", .recording⟩] ∧
    activeRecordings (startRecording firstRecording "1700000000000" true) "1700000000000" = 2 ∧
    (stopRecording (autoStopTimer (autoStopTimer
        (startRecording firstRecording "1700000000000" true)
        "1700000000000") "1700000000000") "1700000000000").recorders =
      [⟨"1700000000000", .recording⟩, ⟨"1700000000000", .inactive⟩] ∧
    (stopRecording (autoStopTimer (autoStopTimer
        (startRecording firstRecording "1700000000000" true)
        "1700000000000") "1700000000000") "1700000000000").activeRecorders "1700000000000" =
      none := by
  decide

end StickyNotes
